import Mathlib

/-!
Verification development for the sample program `ModifiedThroughput.cpp`.

The sample parses command-line options into a `Settings` struct, opens a
publication and a subscription through the external messaging library, runs a
claim-and-commit send loop on the main thread, a poll loop on a second thread,
and reports a back-pressure ratio.  The external library (option parser,
publication, subscription, idle strategies) is not part of the repository
snapshot, so its interface is modelled; the logic of `ModifiedThroughput.cpp`
itself (the option table, field order, the loops, the guards) is embedded
directly from the source.
-/

namespace ModifiedThroughput

/-- C int32 maximum, INT32_MAX in the source. -/
def INT32_MAX : Int := 2147483647

/-- C int64 maximum, INT64_MAX in the source. -/
def INT64_MAX : Int := 9223372036854775807

/-- Option character for help, source line 39. -/
def optHelp : Char := 'h'

/-- Option character for the driver directory, source line 40 (optPrefix). -/
def optPrefixChar : Char := 'p'

/-- Option character for the publisher channel, source line 41. -/
def optPChannel : Char := 'C'

/-- Option character for the subscriber channel, source line 42. -/
def optSChannel : Char := 'c'

/-- Option character for the publisher stream id, source line 43. -/
def pOptStreamId : Char := 's'

/-- Option character for the subscriber stream id, source line 44.  Note that
it is the same character as `pOptStreamId`. -/
def sOptStreamId : Char := 's'

/-- Option character for the message count, source line 45. -/
def optMessages : Char := 'm'

/-- Option character for linger timeout, source line 46. -/
def optLinger : Char := 'l'

/-- Option character for message length, source line 47. -/
def optLength : Char := 'L'

/-- Option character for rate progress, source line 48. -/
def optProgress : Char := 'P'

/-- Option character for the fragment count limit, source line 49. -/
def optFrags : Char := 'f'

/-- Option character for the subscription delay, source line 50. -/
def optSubscriptionDelay : Char := 'd'

/-- Modelled from the spec: the sample default configuration values that the
source takes from `samples::configuration` in `Configuration.h`, a repository
header that is not under `src/`.  The spec only says the settings struct is
populated from command-line flags with defaults, so the defaults are kept
abstract here as a parameter of the parser. -/
structure DefaultConfig where
  dirPrefixStr : String
  channel : String
  streamId : Int
  numberOfMessages : Int
  messageLength : Int
  lingerTimeoutMs : Int
  fragmentCountLimit : Int
  progress : Bool
deriving Repr, DecidableEq

/-- The settings struct of the source, lines 52 to 65.  Machine integers are
modelled as `Int`; the parser's range checks keep every accepted value inside
its C type. -/
structure Settings where
  dirPrefixStr : String
  pChannel : String
  sChannel : String
  pStreamId : Int
  sStreamId : Int
  numberOfMessages : Int
  messageLength : Int
  lingerTimeoutMs : Int
  fragmentCountLimit : Int
  progress : Bool
  subscriptionDelay : Int
deriving Repr, DecidableEq

/-- Modelled from the spec: the exception thrown by the external option parser
on an invalid command-line option (`CommandOptionException` in the library,
which is not under `src/`). -/
structure CommandOptionException where
  msg : String
deriving Repr, DecidableEq

/-- Modelled from the spec: the state of the external `CommandOptionParser`
after `cp.parse(argc, argv)` succeeded.  For each option character it records
whether the option is present on the command line, its first parameter as
text, and that parameter's integer value when the text parses as an integer.
Because the parser keys options by their character, the two stream-id reads
(both through character `'s'`) consult the same entry. -/
structure CommandOptionParser where
  present : Char → Bool
  strParam : Char → String
  intParam : Char → Option Int

/-- Modelled from the spec: `getOption(c).getParam(0, default)` — the textual
parameter when the option is present, the default otherwise. -/
def getParam (cp : CommandOptionParser) (c : Char) (d : String) : String :=
  if cp.present c then cp.strParam c else d

/-- Modelled from the spec: `getOption(c).getParamAsInt(0, lo, hi, default)` —
the default when the option is absent; otherwise the parameter's integer
value, which must lie in `[lo, hi]`, and an exception when it does not parse
or is out of range ("basic range validation already enforced by the option
parser"). -/
def getParamAsInt (cp : CommandOptionParser) (c : Char) (lo hi d : Int) :
    Except CommandOptionException Int :=
  if cp.present c then
    match cp.intParam c with
    | none => .error ⟨"invalid numeric value"⟩
    | some v => if lo ≤ v ∧ v ≤ hi then .ok v else .error ⟨"value out of range"⟩
  else
    .ok d

/-- Modelled from the spec: `getParamAsLong`, identical to `getParamAsInt` up
to the machine width, which the `Int` model absorbs. -/
def getParamAsLong (cp : CommandOptionParser) (c : Char) (lo hi d : Int) :
    Except CommandOptionException Int :=
  getParamAsInt cp c lo hi d

/-- Outcome of `parseCmdLine`, source lines 67 to 91: the help path calls
`exit(0)` after displaying the options help, an option error propagates as a
`CommandOptionException`, and otherwise a `Settings` value is returned. -/
inductive ParseResult where
  | helpShown
  | err (e : CommandOptionException)
  | ok (s : Settings)
deriving Repr, DecidableEq

/-- The body of `parseCmdLine`, source lines 67 to 91, with the source's field
order.  `8` is `sizeof(std::int64_t)` (line 84) and `3600000` is
`60 * 60 * 1000` (line 85); the subscription-delay default `0` is the struct
initialiser on line 64. -/
def parseCmdLine (cp : CommandOptionParser) (cfg : DefaultConfig) : ParseResult :=
  if cp.present optHelp then
    .helpShown
  else
    match getParamAsInt cp pOptStreamId 1 INT32_MAX cfg.streamId with
    | .error e => .err e
    | .ok pStreamId =>
      match getParamAsInt cp sOptStreamId 1 INT32_MAX cfg.streamId with
      | .error e => .err e
      | .ok sStreamId =>
        match getParamAsLong cp optMessages 0 INT64_MAX cfg.numberOfMessages with
        | .error e => .err e
        | .ok numberOfMessages =>
          match getParamAsInt cp optLength 8 INT32_MAX cfg.messageLength with
          | .error e => .err e
          | .ok messageLength =>
            match getParamAsInt cp optLinger 0 3600000 cfg.lingerTimeoutMs with
            | .error e => .err e
            | .ok lingerTimeoutMs =>
              match getParamAsInt cp optFrags 1 INT32_MAX cfg.fragmentCountLimit with
              | .error e => .err e
              | .ok fragmentCountLimit =>
                match getParamAsInt cp optSubscriptionDelay 0 INT32_MAX 0 with
                | .error e => .err e
                | .ok subscriptionDelay =>
                  .ok
                    { dirPrefixStr := getParam cp optPrefixChar cfg.dirPrefixStr
                      pChannel := getParam cp optPChannel cfg.channel
                      sChannel := getParam cp optSChannel cfg.channel
                      pStreamId := pStreamId
                      sStreamId := sStreamId
                      numberOfMessages := numberOfMessages
                      messageLength := messageLength
                      lingerTimeoutMs := lingerTimeoutMs
                      fragmentCountLimit := fragmentCountLimit
                      progress := cp.present optProgress
                      subscriptionDelay := subscriptionDelay }

/-- An observable event of the send loop, source lines 286 to 297.  Events are
stamped with a global tick `t` so that the order of flag reads and claim calls
relative to the moment the running flag is cleared can be stated.  A
`flagCheck` is the `isRunning()` read in the for-loop condition, a `tryClaim`
is one call of `publicationPtr->tryClaim(length, bufferClaim)` with its return
value, and a `commit` is the `putInt64` of the loop index `seq` followed by
`bufferClaim.commit()` on a claim granted at buffer offset `offset` with
`length` claimed bytes. -/
inductive Event where
  | flagCheck (t : Nat) (b : Bool)
  | tryClaim (t : Nat) (length result : Int)
  | commit (t : Nat) (seq offset length : Int)
deriving Repr, DecidableEq

/-- The external world the send loop runs against: `clearTime` is the tick at
which the SIGINT handler clears the atomic running flag (`none` when no signal
arrives), `claimResult` gives the return value of the j-th `tryClaim` call of
the run, and `claimOffset` the buffer offset of the claim granted by the j-th
call when it succeeds. -/
structure SendEnv where
  clearTime : Option Nat
  claimResult : Nat → Int
  claimOffset : Nat → Int

/-- Value of the atomic `running` flag at tick `t`: initialised `true` (source
line 32), set to `false` by the signal handler and never set back. -/
def flagAt (clearTime : Option Nat) (t : Nat) : Bool :=
  match clearTime with
  | none => true
  | some c => decide (t < c)

/-- The signal handler, source lines 34 to 37: it writes `false` into the
running flag whatever the signal number and previous value were. -/
def sigIntHandler (_sig : Int) (_running : Bool) : Bool :=
  false

/-- The inner retry loop of the send loop, source lines 289 to 293:
`while (tryClaim(len, bufferClaim) < 0) { backPressureCount++; idle(); }`.
It does not read the running flag.  Arguments: next call number, current
tick, fuel.  Returns the events of this loop, the next call number, the next
tick and the number of failed (negative) attempts, or `none` when fuel runs
out (the loop did not terminate within `fuel` calls). -/
def claimLoop (env : SendEnv) (len : Int) : Nat → Nat → Nat →
    Option (List Event × Nat × Nat × Nat)
  | _, _, 0 => none
  | call, t, fuel + 1 =>
    if env.claimResult call < 0 then
      match claimLoop env len (call + 1) (t + 1) fuel with
      | none => none
      | some (evs, call2, t2, f) =>
        some (.tryClaim t len (env.claimResult call) :: evs, call2, t2, f + 1)
    else
      some ([.tryClaim t len (env.claimResult call)], call + 1, t + 1, 0)

/-- The outer send loop, source lines 286 to 297:
`for (i = 0; i < numberOfMessages && isRunning(); i++)` around the retry loop,
the `putInt64(offset, i)` write and the commit.  Arguments: loop index `i`,
next call number, current tick, fuel.  Returns the events in program order and
the final `backPressureCount`, or `none` when fuel runs out.  The short
circuit of `&&` is kept: when `i` has reached `numberOfMessages` the flag is
not read, so no `flagCheck` event is emitted. -/
def sendFor (env : SendEnv) (N L : Int) : Int → Nat → Nat → Nat →
    Option (List Event × Nat)
  | _, _, _, 0 => none
  | i, call, t, fuel + 1 =>
    if i < N then
      if flagAt env.clearTime t then
        match claimLoop env L call (t + 1) fuel with
        | none => none
        | some (evs, call2, t2, f) =>
          match sendFor env N L (i + 1) call2 (t2 + 1) fuel with
          | none => none
          | some (evs2, bp2) =>
            some (.flagCheck t true :: evs ++
                .commit t2 i (env.claimOffset (call2 - 1)) L :: evs2,
              f + bp2)
      else
        some ([.flagCheck t false], 0)
    else
      some ([], 0)

/-- The committed messages of an event list, in order: for each `commit`
event, its sequence number, buffer offset and claimed length. -/
def commitEvents : List Event → List (Int × Int × Int)
  | [] => []
  | .commit _ s o l :: rest => (s, o, l) :: commitEvents rest
  | _ :: rest => commitEvents rest

/-- Number of `tryClaim` calls in an event list. -/
def claimCount : List Event → Nat
  | [] => 0
  | .tryClaim _ _ _ :: rest => claimCount rest + 1
  | _ :: rest => claimCount rest

/-- Number of failed `tryClaim` calls (negative return) in an event list. -/
def negClaimCount : List Event → Nat
  | [] => 0
  | .tryClaim _ _ r :: rest => (if r < 0 then 1 else 0) + negClaimCount rest
  | _ :: rest => negClaimCount rest

/-- The integers from `i` (inclusive) to `N` (exclusive), the sequence of
loop indices the for loop runs through. -/
def intSeqs (i N : Int) : List Int :=
  if i < N then i :: intSeqs (i + 1) N else []
termination_by (N - i).toNat
decreasing_by omega

/-- An observable event of the poll loop, source lines 255 to 270: a read of
the running flag, or one `subscriptionPtr->poll(handler, fragmentCountLimit)`
call. -/
inductive PollEvent where
  | check (t : Nat) (b : Bool)
  | poll (t : Nat)
deriving Repr, DecidableEq

/-- The poll loop, source lines 255 to 270: both branches (with and without a
subscription delay) run `while (isRunning()) { idle(poll(...)); sleep; }`; the
branches differ only in the sleep duration, which does not change the event
order, so one loop models both.  Arguments: current tick and fuel. -/
def pollLoop (clearTime : Option Nat) : Nat → Nat → List PollEvent
  | _, 0 => []
  | t, fuel + 1 =>
    if flagAt clearTime t then
      .check t true :: .poll (t + 1) :: pollLoop clearTime (t + 2) fuel
    else
      [.check t false]

/-- First byte written by `putInt64(offset, i)`, source line 295. -/
def putInt64Lo (offset : Int) : Int := offset

/-- One past the last byte written by `putInt64(offset, i)`: the write covers
`sizeof(std::int64_t) = 8` bytes. -/
def putInt64Hi (offset : Int) : Int := offset + 8

/-- The back-pressure ratio printed on source line 305,
`(double)backPressureCount / (double)settings.numberOfMessages`, modelled as
exact rational division. -/
def backPressureRatioQ (bp N : Int) : ℚ :=
  (bp : ℚ) / (N : ℚ)

/-- Observable outcome of one run of `main` after the option table is built,
source lines 144 to 334: the process exit code, whether the options help
(usage) text was printed, whether an error message was printed, the send-loop
events, and the numerator and denominator of the printed back-pressure ratio
when the run reaches that print. -/
structure MainOutcome where
  exitCode : Int
  usageShown : Bool
  errorShown : Bool
  events : List Event
  ratio : Option (Int × Int)
deriving Repr, DecidableEq

/-- The control flow of `main` around the send loop, source lines 144 to 334:
parse the command line (the help path prints the options help and exits 0; a
`CommandOptionException` prints the error and the options help and returns
-1, lines 317 to 322); reject a message length above the publication's
`maxPayloadLength` with an error and exit code -1 before any claim (lines 207
to 213); otherwise run the send loop and print the back-pressure ratio
(lines 286 to 305).  The single pass models a run in which the
`continuationBarrier("Execute again?")` prompt declines a second pass; the
poll thread is modelled separately by `pollLoop`.  `none` means the send loop
ran out of fuel. -/
def mainRun (cp : CommandOptionParser) (cfg : DefaultConfig)
    (maxPayloadLength : Int) (env : SendEnv) (fuel : Nat) : Option MainOutcome :=
  match parseCmdLine cp cfg with
  | .helpShown => some ⟨0, true, false, [], none⟩
  | .err _ => some ⟨-1, true, true, [], none⟩
  | .ok s =>
    if s.messageLength > maxPayloadLength then
      some ⟨-1, false, true, [], none⟩
    else
      match sendFor env s.numberOfMessages s.messageLength 0 0 0 fuel with
      | none => none
      | some (evs, bp) => some ⟨0, false, false, evs, some ((bp : Int), s.numberOfMessages)⟩

/-- Helper: a successful `getParamAsInt` yields either a value the range check
let through, or the untouched default when the option is absent. -/
theorem getParamAsInt_ok_cases (cp : CommandOptionParser) (c : Char) (lo hi d v : Int)
    (h : getParamAsInt cp c lo hi d = .ok v) :
    (lo ≤ v ∧ v ≤ hi) ∨ v = d := by
  unfold getParamAsInt at h
  by_cases hp : cp.present c
  · simp only [hp, if_true] at h
    cases hip : cp.intParam c with
    | none => rw [hip] at h; exact absurd h (by simp)
    | some w =>
      simp only [hip] at h
      by_cases hr : lo ≤ w ∧ w ≤ hi
      · rw [if_pos hr] at h
        injection h with h
        exact Or.inl (h ▸ hr)
      · simp [hr] at h
  · simp only [hp, if_false, Bool.false_eq_true, Except.ok.injEq] at h
    exact Or.inr h.symm

/-- Helper: inversion of a successful `parseCmdLine`, recovering each field of
the returned settings from its parsing expression in source order. -/
theorem parseCmdLine_ok_fields (cp : CommandOptionParser) (cfg : DefaultConfig)
    (s : Settings) (h : parseCmdLine cp cfg = .ok s) :
    getParamAsInt cp pOptStreamId 1 INT32_MAX cfg.streamId = .ok s.pStreamId ∧
    getParamAsInt cp sOptStreamId 1 INT32_MAX cfg.streamId = .ok s.sStreamId ∧
    getParamAsLong cp optMessages 0 INT64_MAX cfg.numberOfMessages = .ok s.numberOfMessages ∧
    getParamAsInt cp optLength 8 INT32_MAX cfg.messageLength = .ok s.messageLength ∧
    getParamAsInt cp optLinger 0 3600000 cfg.lingerTimeoutMs = .ok s.lingerTimeoutMs ∧
    getParamAsInt cp optFrags 1 INT32_MAX cfg.fragmentCountLimit = .ok s.fragmentCountLimit ∧
    getParamAsInt cp optSubscriptionDelay 0 INT32_MAX 0 = .ok s.subscriptionDelay := by
  unfold parseCmdLine at h
  by_cases hh : cp.present optHelp
  · simp [hh] at h
  · simp only [hh, Bool.false_eq_true, if_false] at h
    cases h1 : getParamAsInt cp pOptStreamId 1 INT32_MAX cfg.streamId with
    | error e => rw [h1] at h; exact absurd h (by simp)
    | ok v1 =>
      rw [h1] at h
      cases h2 : getParamAsInt cp sOptStreamId 1 INT32_MAX cfg.streamId with
      | error e => rw [h2] at h; exact absurd h (by simp)
      | ok v2 =>
        rw [h2] at h
        cases h3 : getParamAsLong cp optMessages 0 INT64_MAX cfg.numberOfMessages with
        | error e => rw [h3] at h; exact absurd h (by simp)
        | ok v3 =>
          rw [h3] at h
          cases h4 : getParamAsInt cp optLength 8 INT32_MAX cfg.messageLength with
          | error e => rw [h4] at h; exact absurd h (by simp)
          | ok v4 =>
            rw [h4] at h
            cases h5 : getParamAsInt cp optLinger 0 3600000 cfg.lingerTimeoutMs with
            | error e => rw [h5] at h; exact absurd h (by simp)
            | ok v5 =>
              rw [h5] at h
              cases h6 : getParamAsInt cp optFrags 1 INT32_MAX cfg.fragmentCountLimit with
              | error e => rw [h6] at h; exact absurd h (by simp)
              | ok v6 =>
                rw [h6] at h
                cases h7 : getParamAsInt cp optSubscriptionDelay 0 INT32_MAX 0 with
                | error e => rw [h7] at h; exact absurd h (by simp)
                | ok v7 =>
                  rw [h7] at h
                  simp only [ParseResult.ok.injEq] at h
                  subst h
                  exact ⟨rfl, rfl, rfl, rfl, rfl, rfl, rfl⟩

/-- Helper: unfolding equations for `intSeqs`. -/
theorem intSeqs_pos (i N : Int) (h : i < N) : intSeqs i N = i :: intSeqs (i + 1) N := by
  rw [intSeqs, if_pos h]

/-- Helper: `intSeqs` is empty when the range is empty. -/
theorem intSeqs_neg (i N : Int) (h : ¬i < N) : intSeqs i N = [] := by
  rw [intSeqs, if_neg h]

/-- Helper: `commitEvents` distributes over list append. -/
theorem commitEvents_append (a b : List Event) :
    commitEvents (a ++ b) = commitEvents a ++ commitEvents b := by
  induction a with
  | nil => rfl
  | cons e rest ih => cases e <;> simp [commitEvents, ih]

/-- Helper: `negClaimCount` adds over list append. -/
theorem negClaimCount_append (a b : List Event) :
    negClaimCount (a ++ b) = negClaimCount a + negClaimCount b := by
  induction a with
  | nil => simp [negClaimCount]
  | cons e rest ih => cases e <;> simp [negClaimCount, ih, Nat.add_assoc]

/-- Helper: what a terminating inner retry loop did: it committed nothing, its
failure count is exactly the number of negative `tryClaim` returns, every
claim asked for `len` bytes, and it made `f + 1` calls over `f + 1` ticks
(`f` failures then one success). -/
theorem claimLoop_spec (env : SendEnv) (len : Int) :
    ∀ fuel call t evs call2 t2 f,
      claimLoop env len call t fuel = some (evs, call2, t2, f) →
      commitEvents evs = [] ∧ negClaimCount evs = f ∧
      (∀ u l r, Event.tryClaim u l r ∈ evs → l = len) ∧
      call2 = call + f + 1 ∧ t2 = t + f + 1 := by
  intro fuel
  induction fuel with
  | zero =>
    intro call t evs call2 t2 f h
    simp [claimLoop] at h
  | succ n ih =>
    intro call t evs call2 t2 f h
    rw [claimLoop] at h
    by_cases hr : env.claimResult call < 0
    · rw [if_pos hr] at h
      cases hcl : claimLoop env len (call + 1) (t + 1) n with
      | none => rw [hcl] at h; cases h
      | some x =>
        obtain ⟨evs1, call21, t21, f1⟩ := x
        rw [hcl] at h
        simp only [Option.some.injEq, Prod.mk.injEq] at h
        obtain ⟨hevs, hcall2, ht2, hf⟩ := h
        obtain ⟨ihA, ihB, ihC, ihD, ihE⟩ := ih _ _ _ _ _ _ hcl
        subst hevs hcall2 ht2 hf
        refine ⟨by simpa [commitEvents] using ihA, ?_, ?_, by omega, by omega⟩
        · simp [negClaimCount, hr, ihB]
          omega
        · intro u l r hm
          rcases List.mem_cons.mp hm with he | hm1
          · injection he
          · exact ihC u l r hm1
    · rw [if_neg hr] at h
      simp only [Option.some.injEq, Prod.mk.injEq] at h
      obtain ⟨hevs, hcall2, ht2, hf⟩ := h
      subst hevs hcall2 ht2 hf
      refine ⟨by simp [commitEvents], by simp [negClaimCount, hr], ?_, by omega, by omega⟩
      intro u l r hm
      rcases List.mem_cons.mp hm with he | hm1
      · injection he
      · cases hm1

/-- Helper: what a terminating send loop did: the final back-pressure count is
exactly the number of negative `tryClaim` returns; every claim asked for `L`
bytes; every commit committed `L` claimed bytes; and when no signal ever
arrives the committed sequence numbers are exactly the loop indices from `i`
to `N`. -/
theorem sendFor_spec (env : SendEnv) (N L : Int) :
    ∀ fuel i call t evs bp,
      sendFor env N L i call t fuel = some (evs, bp) →
      negClaimCount evs = bp ∧
      (∀ u l r, Event.tryClaim u l r ∈ evs → l = L) ∧
      (∀ x ∈ commitEvents evs, x.2.2 = L) ∧
      (env.clearTime = none → (commitEvents evs).map (fun x => x.1) = intSeqs i N) := by
  intro fuel
  induction fuel with
  | zero =>
    intro i call t evs bp h
    simp [sendFor] at h
  | succ n ih =>
    intro i call t evs bp h
    rw [sendFor] at h
    by_cases hiN : i < N
    · rw [if_pos hiN] at h
      by_cases hfl : flagAt env.clearTime t = true
      · rw [if_pos hfl] at h
        cases hcl : claimLoop env L call (t + 1) n with
        | none => rw [hcl] at h; cases h
        | some x =>
          obtain ⟨evs1, call2, t2, f⟩ := x
          simp only [hcl] at h
          cases hsf : sendFor env N L (i + 1) call2 (t2 + 1) n with
          | none => rw [hsf] at h; cases h
          | some y =>
            obtain ⟨evs2, bp2⟩ := y
            rw [hsf] at h
            simp only [Option.some.injEq, Prod.mk.injEq] at h
            obtain ⟨hevs, hbp⟩ := h
            obtain ⟨cA, cB, cC, cD, cE⟩ := claimLoop_spec env L n call (t + 1) evs1 call2 t2 f hcl
            obtain ⟨sA, sB, sC, sD⟩ := ih _ _ _ _ _ hsf
            subst hevs hbp
            refine ⟨?_, ?_, ?_, ?_⟩
            · simp [negClaimCount, negClaimCount_append, cB, sA]
            · intro u l r hm
              rcases List.mem_cons.mp hm with he | hm1
              · exact absurd he (by simp)
              · rcases List.mem_append.mp hm1 with hm2 | hm3
                · exact cC u l r hm2
                · rcases List.mem_cons.mp hm3 with he | hm4
                  · exact absurd he (by simp)
                  · exact sB u l r hm4
            · intro x hx
              simp [commitEvents, commitEvents_append, cA] at hx
              rcases hx with he | hx2
              · rw [he]
              · exact sC x hx2
            · intro hct
              simp [commitEvents, commitEvents_append, cA, sD hct, intSeqs_pos i N hiN]
      · rw [if_neg hfl] at h
        simp only [Option.some.injEq, Prod.mk.injEq] at h
        obtain ⟨hevs, hbp⟩ := h
        subst hevs hbp
        refine ⟨by simp [negClaimCount], ?_, by simp [commitEvents], ?_⟩
        · intro u l r hm
          rcases List.mem_cons.mp hm with he | hm1
          · exact absurd he (by simp)
          · cases hm1
        · intro hct
          rw [hct] at hfl
          simp [flagAt] at hfl
    · rw [if_neg hiN] at h
      simp only [Option.some.injEq, Prod.mk.injEq] at h
      obtain ⟨hevs, hbp⟩ := h
      subst hevs hbp
      refine ⟨by simp [negClaimCount], ?_, by simp [commitEvents], ?_⟩
      · intro u l r hm
        cases hm
      · intro hct
        rw [intSeqs_neg i N hiN]
        simp [commitEvents]

/-- Helper: the length of `intSeqs i N` is the size of the index range. -/
theorem intSeqs_length (i N : Int) : (intSeqs i N).length = (N - i).toNat := by
  generalize hk : (N - i).toNat = k
  induction k generalizing i with
  | zero =>
    rw [intSeqs_neg i N (by omega)]
    simp
  | succ m ihm =>
    rw [intSeqs_pos i N (by omega), List.length_cons, ihm (i + 1) (by omega)]

/-- Helper: the running flag never returns to true after it has been read
false (the handler only clears it and nothing sets it back). -/
theorem flagAt_mono (c : Option Nat) (t t' : Nat) (hle : t ≤ t')
    (h : flagAt c t = false) : flagAt c t' = false := by
  cases c with
  | none => simp [flagAt] at h
  | some k =>
    simp only [flagAt, decide_eq_false_iff_not, not_lt] at h ⊢
    omega

/-- Helper: a send-loop iteration whose flag test reads false performs no
claim and no commit: at most the one failing flag check is recorded. -/
theorem sendFor_flag_false (env : SendEnv) (N L i : Int) (call t fuel : Nat)
    (evs : List Event) (bp : Nat)
    (h : sendFor env N L i call t fuel = some (evs, bp))
    (hfl : flagAt env.clearTime t = false) :
    (evs = [] ∨ evs = [Event.flagCheck t false]) ∧ bp = 0 ∧
    commitEvents evs = [] ∧ claimCount evs = 0 := by
  cases fuel with
  | zero => simp [sendFor] at h
  | succ n =>
    rw [sendFor] at h
    by_cases hiN : i < N
    · rw [if_pos hiN] at h
      simp [hfl] at h
      obtain ⟨hevs, hbp⟩ := h
      subst hevs
      subst hbp
      exact ⟨Or.inr rfl, rfl, by simp [commitEvents], by simp [claimCount]⟩
    · rw [if_neg hiN] at h
      simp only [Option.some.injEq, Prod.mk.injEq] at h
      obtain ⟨hevs, hbp⟩ := h
      subst hevs
      subst hbp
      exact ⟨Or.inl rfl, rfl, rfl, rfl⟩

/-- Helper: every poll of the poll loop happens right after a flag test that
read true — the poll loop tests the flag before each iteration. -/
theorem pollLoop_poll_after_true_check (clearTime : Option Nat) :
    ∀ fuel t u, PollEvent.poll u ∈ pollLoop clearTime t fuel →
      0 < u ∧ flagAt clearTime (u - 1) = true := by
  intro fuel
  induction fuel with
  | zero =>
    intro t u hm
    simp [pollLoop] at hm
  | succ n ih =>
    intro t u hm
    rw [pollLoop] at hm
    by_cases hfl : flagAt clearTime t = true
    · rw [if_pos hfl] at hm
      rcases List.mem_cons.mp hm with he | hm1
      · exact absurd he (by simp)
      · rcases List.mem_cons.mp hm1 with he | hm2
        · injection he with hu
          subst hu
          exact ⟨by omega, by simpa using hfl⟩
        · exact ih (t + 2) u hm2
    · rw [if_neg hfl] at hm
      rcases List.mem_cons.mp hm with he | hm1
      · exact absurd he (by simp)
      · cases hm1

/-- A command line with no options at all. -/
def cpEmpty : CommandOptionParser :=
  ⟨fun _ => false, fun _ => "", fun _ => none⟩

/-- A command line requesting 2 messages of 8 bytes. -/
def cpSmall : CommandOptionParser :=
  ⟨fun c => c == 'm' || c == 'L', fun _ => "",
    fun c => if c == 'm' then some 2 else if c == 'L' then some 8 else none⟩

/-- A command line requesting 0 messages. -/
def cpZero : CommandOptionParser :=
  ⟨fun c => c == 'm', fun _ => "", fun c => if c == 'm' then some 0 else none⟩

/-- A command line with an out-of-range message count. -/
def cpBad : CommandOptionParser :=
  ⟨fun c => c == 'm', fun _ => "", fun c => if c == 'm' then some (-1) else none⟩

/-- A configuration whose default values lie inside the parser's ranges,
standing in for the shipped sample configuration values. -/
def sampleConfig : DefaultConfig :=
  ⟨"", "aeron:udp?endpoint=localhost:20121", 10, 10000000, 32, 0, 10, false⟩

/-- The settings produced by `cpSmall` under `sampleConfig`. -/
def settingsSmall : Settings :=
  ⟨"", "aeron:udp?endpoint=localhost:20121", "aeron:udp?endpoint=localhost:20121",
    10, 10, 2, 8, 0, 10, false, 0⟩

/-- The settings produced by `cpZero` under `sampleConfig`. -/
def settingsZero : Settings :=
  ⟨"", "aeron:udp?endpoint=localhost:20121", "aeron:udp?endpoint=localhost:20121",
    10, 10, 0, 32, 0, 10, false, 0⟩

/-- An environment with no signal and every claim granted at once. -/
def envAllOk : SendEnv :=
  ⟨none, fun _ => 0, fun _ => 0⟩

/-- An environment with no signal where the very first claim is rejected once
(back pressure) and every later claim is granted. -/
def envBackPressure : SendEnv :=
  ⟨none, fun c => if c == 0 then -1 else 0, fun _ => 0⟩

/-- An environment where the flag is cleared at tick 1, while the first
message is still in its retry loop. -/
def envCleared : SendEnv :=
  ⟨some 1, fun c => if c == 0 then -1 else 0, fun _ => 0⟩

/-- An environment where the flag is cleared before the first flag test. -/
def envClearedAtZero : SendEnv :=
  ⟨some 0, fun _ => 0, fun _ => 0⟩

/-- C1: the claim fails on the code — the publisher and subscriber stream-id
flags are the same option character `'s'` (`pOptStreamId = sOptStreamId`,
source lines 43 and 44), so both settings fields are parsed from the same
option and are equal on every accepted command line; no command line makes
`pStreamId` differ from `sStreamId`.  The option table's help text documents
two distinct stream-id options, so the shared character is a slip in the
code. -/
theorem streamIds_always_equal (cp : CommandOptionParser) (cfg : DefaultConfig)
    (s : Settings) (h : parseCmdLine cp cfg = .ok s) :
    s.pStreamId = s.sStreamId := by
  obtain ⟨h1, h2, _⟩ := parseCmdLine_ok_fields cp cfg s h
  have hc : pOptStreamId = sOptStreamId := rfl
  rw [hc] at h1
  rw [h1] at h2
  injection h2

/-- Witness for C1's theorem at a concrete command line. -/
theorem streamIds_always_equal_witness :
    parseCmdLine cpSmall sampleConfig = .ok settingsSmall ∧
    settingsSmall.pStreamId = settingsSmall.sStreamId :=
  ⟨by decide, streamIds_always_equal cpSmall sampleConfig settingsSmall (by decide)⟩

/-- C2: for settings accepted by the parser, if the running flag stays true
throughout the run (no signal ever arrives) and the send loop terminates, it
performs exactly `numberOfMessages` commits, and every `tryClaim` call and
every commit claims exactly `messageLength` bytes. -/
theorem sendLoop_offers_all_messages (cp : CommandOptionParser) (cfg : DefaultConfig)
    (s : Settings) (env : SendEnv) (fuel : Nat) (evs : List Event) (bp : Nat)
    (_hparse : parseCmdLine cp cfg = .ok s)
    (hrun : env.clearTime = none)
    (h : sendFor env s.numberOfMessages s.messageLength 0 0 0 fuel = some (evs, bp)) :
    (commitEvents evs).length = s.numberOfMessages.toNat ∧
    (∀ u l r, Event.tryClaim u l r ∈ evs → l = s.messageLength) ∧
    (∀ x ∈ commitEvents evs, x.2.2 = s.messageLength) := by
  obtain ⟨_, hB, hC, hD⟩ :=
    sendFor_spec env s.numberOfMessages s.messageLength fuel 0 0 0 evs bp h
  refine ⟨?_, hB, hC⟩
  have hl := congrArg List.length (hD hrun)
  rw [List.length_map, intSeqs_length] at hl
  rw [hl]
  congr 1
  omega

/-- The event trace of the `cpSmall` run against `envAllOk`. -/
def eventsSmall : List Event :=
  [Event.flagCheck 0 true, Event.tryClaim 1 8 0, Event.commit 2 0 0 8,
    Event.flagCheck 3 true, Event.tryClaim 4 8 0, Event.commit 5 1 0 8]

/-- Witness for C2's theorem at a concrete command line and environment. -/
theorem sendLoop_offers_all_messages_witness :
    parseCmdLine cpSmall sampleConfig = .ok settingsSmall ∧
    sendFor envAllOk settingsSmall.numberOfMessages settingsSmall.messageLength 0 0 0 10 =
      some (eventsSmall, 0) ∧
    (commitEvents eventsSmall).length = settingsSmall.numberOfMessages.toNat :=
  ⟨by decide, by decide,
    (sendLoop_offers_all_messages cpSmall sampleConfig settingsSmall envAllOk 10
      eventsSmall 0 (by decide) rfl (by decide)).1⟩

/-- C3: after a completed send loop, the reported back-pressure ratio is the
number of failed (negative) `tryClaim` attempts accumulated during the loop,
divided by `numberOfMessages`: the printed pair is exactly
(negative-claim count, message count) and the printed value is their
(exact) quotient. -/
theorem backPressure_ratio_reported (cp : CommandOptionParser) (cfg : DefaultConfig)
    (s : Settings) (maxPayloadLength : Int) (env : SendEnv) (fuel : Nat) (o : MainOutcome)
    (hparse : parseCmdLine cp cfg = .ok s)
    (hlen : ¬s.messageLength > maxPayloadLength)
    (h : mainRun cp cfg maxPayloadLength env fuel = some o) :
    o.ratio = some ((negClaimCount o.events : Int), s.numberOfMessages) ∧
    backPressureRatioQ (negClaimCount o.events : Int) s.numberOfMessages =
      ((negClaimCount o.events : Int) : ℚ) / ((s.numberOfMessages : Int) : ℚ) := by
  unfold mainRun at h
  simp only [hparse] at h
  rw [if_neg hlen] at h
  cases hsf : sendFor env s.numberOfMessages s.messageLength 0 0 0 fuel with
  | none => rw [hsf] at h; cases h
  | some y =>
    obtain ⟨evs, bp⟩ := y
    rw [hsf] at h
    simp only [Option.some.injEq] at h
    obtain ⟨hA, _, _, _⟩ :=
      sendFor_spec env s.numberOfMessages s.messageLength fuel 0 0 0 evs bp hsf
    subst h
    exact ⟨by simp [hA], rfl⟩

/-- The outcome of the `cpSmall` run against `envBackPressure`. -/
def mainOutBP : MainOutcome :=
  ⟨0, false, false,
    [Event.flagCheck 0 true, Event.tryClaim 1 8 (-1), Event.tryClaim 2 8 0,
      Event.commit 3 0 0 8, Event.flagCheck 4 true, Event.tryClaim 5 8 0,
      Event.commit 6 1 0 8],
    some (1, 2)⟩

/-- Witness for C3's theorem at a run with one rejected claim. -/
theorem backPressure_ratio_reported_witness :
    parseCmdLine cpSmall sampleConfig = .ok settingsSmall ∧
    mainRun cpSmall sampleConfig 100 envBackPressure 12 = some mainOutBP ∧
    mainOutBP.ratio = some ((negClaimCount mainOutBP.events : Int), settingsSmall.numberOfMessages) :=
  ⟨by decide, by decide,
    (backPressure_ratio_reported cpSmall sampleConfig settingsSmall 100 envBackPressure 12
      mainOutBP (by decide) (by decide) (by decide)).1⟩

/-- C4: when the accepted message length exceeds the publication's maximum
payload length, the run reports the error and exits with code -1 before any
claim or commit: the outcome has no events and no ratio print. -/
theorem messageLength_exceeds_maxPayload_rejected (cp : CommandOptionParser)
    (cfg : DefaultConfig) (s : Settings) (maxPayloadLength : Int) (env : SendEnv) (fuel : Nat)
    (hparse : parseCmdLine cp cfg = .ok s)
    (hlen : s.messageLength > maxPayloadLength) :
    mainRun cp cfg maxPayloadLength env fuel = some ⟨-1, false, true, [], none⟩ := by
  unfold mainRun
  simp only [hparse]
  rw [if_pos hlen]

/-- Witness for C4's theorem: an 8-byte message against a 4-byte payload
limit. -/
theorem messageLength_exceeds_maxPayload_rejected_witness :
    settingsSmall.messageLength > 4 ∧
    mainRun cpSmall sampleConfig 4 envAllOk 5 = some ⟨-1, false, true, [], none⟩ :=
  ⟨by decide,
    messageLength_exceeds_maxPayload_rejected cpSmall sampleConfig settingsSmall 4 envAllOk 5
      (by decide) (by decide)⟩

/-- C5: when command-line parsing throws a `CommandOptionException`, the run
reports the error together with the usage text and returns -1, and performs
no other work: no events and no ratio print. -/
theorem commandOptionException_usage_and_exit (cp : CommandOptionParser)
    (cfg : DefaultConfig) (e : CommandOptionException) (maxPayloadLength : Int)
    (env : SendEnv) (fuel : Nat)
    (hparse : parseCmdLine cp cfg = .err e) :
    mainRun cp cfg maxPayloadLength env fuel = some ⟨-1, true, true, [], none⟩ := by
  unfold mainRun
  simp only [hparse]

/-- Witness for C5's theorem: a negative message count is rejected. -/
theorem commandOptionException_usage_and_exit_witness :
    parseCmdLine cpBad sampleConfig = .err ⟨"value out of range"⟩ ∧
    mainRun cpBad sampleConfig 100 envAllOk 5 = some ⟨-1, true, true, [], none⟩ :=
  ⟨by decide,
    commandOptionException_usage_and_exit cpBad sampleConfig ⟨"value out of range"⟩ 100
      envAllOk 5 (by decide)⟩

/-- C6: every accepted command line yields settings inside the parser's
ranges (provided the defaults, which the parser returns unvalidated for
absent options, are themselves in range, as the shipped defaults are):
stream ids in [1, INT32_MAX], message count in [0, INT64_MAX], message length
in [8, INT32_MAX], linger in [0, 3600000], fragment limit in [1, INT32_MAX],
subscription delay in [0, INT32_MAX]. -/
theorem parse_enforces_ranges (cp : CommandOptionParser) (cfg : DefaultConfig) (s : Settings)
    (hparse : parseCmdLine cp cfg = .ok s)
    (hStream : 1 ≤ cfg.streamId ∧ cfg.streamId ≤ INT32_MAX)
    (hMsgs : 0 ≤ cfg.numberOfMessages ∧ cfg.numberOfMessages ≤ INT64_MAX)
    (hLen : 8 ≤ cfg.messageLength ∧ cfg.messageLength ≤ INT32_MAX)
    (hLinger : 0 ≤ cfg.lingerTimeoutMs ∧ cfg.lingerTimeoutMs ≤ 3600000)
    (hFrags : 1 ≤ cfg.fragmentCountLimit ∧ cfg.fragmentCountLimit ≤ INT32_MAX) :
    (1 ≤ s.pStreamId ∧ s.pStreamId ≤ INT32_MAX) ∧
    (1 ≤ s.sStreamId ∧ s.sStreamId ≤ INT32_MAX) ∧
    (0 ≤ s.numberOfMessages ∧ s.numberOfMessages ≤ INT64_MAX) ∧
    (8 ≤ s.messageLength ∧ s.messageLength ≤ INT32_MAX) ∧
    (0 ≤ s.lingerTimeoutMs ∧ s.lingerTimeoutMs ≤ 3600000) ∧
    (1 ≤ s.fragmentCountLimit ∧ s.fragmentCountLimit ≤ INT32_MAX) ∧
    (0 ≤ s.subscriptionDelay ∧ s.subscriptionDelay ≤ INT32_MAX) := by
  obtain ⟨h1, h2, h3, h4, h5, h6, h7⟩ := parseCmdLine_ok_fields cp cfg s hparse
  refine ⟨?_, ?_, ?_, ?_, ?_, ?_, ?_⟩
  · rcases getParamAsInt_ok_cases _ _ _ _ _ _ h1 with hin | hd
    · exact hin
    · rw [hd]; exact hStream
  · rcases getParamAsInt_ok_cases _ _ _ _ _ _ h2 with hin | hd
    · exact hin
    · rw [hd]; exact hStream
  · rcases getParamAsInt_ok_cases _ _ _ _ _ _ h3 with hin | hd
    · exact hin
    · rw [hd]; exact hMsgs
  · rcases getParamAsInt_ok_cases _ _ _ _ _ _ h4 with hin | hd
    · exact hin
    · rw [hd]; exact hLen
  · rcases getParamAsInt_ok_cases _ _ _ _ _ _ h5 with hin | hd
    · exact hin
    · rw [hd]; exact hLinger
  · rcases getParamAsInt_ok_cases _ _ _ _ _ _ h6 with hin | hd
    · exact hin
    · rw [hd]; exact hFrags
  · rcases getParamAsInt_ok_cases _ _ _ _ _ _ h7 with hin | hd
    · exact hin
    · rw [hd]; exact ⟨le_refl 0, by decide⟩

/-- Witness for C6's theorem at a concrete command line and defaults. -/
theorem parse_enforces_ranges_witness :
    parseCmdLine cpSmall sampleConfig = .ok settingsSmall ∧
    (1 ≤ settingsSmall.pStreamId ∧ settingsSmall.pStreamId ≤ INT32_MAX) :=
  ⟨by decide,
    (parse_enforces_ranges cpSmall sampleConfig settingsSmall (by decide) (by decide)
      (by decide) (by decide) (by decide) (by decide)).1⟩

/-- C7: with the flag up throughout, a terminating send loop commits every
index from 0 to `numberOfMessages` in order — back pressure never makes it
skip a message or abort, each negative return only increments the counter and
is retried — and the final counter equals the number of negative returns. -/
theorem negative_tryClaim_retried (env : SendEnv) (N L : Int) (fuel : Nat)
    (evs : List Event) (bp : Nat)
    (hrun : env.clearTime = none)
    (h : sendFor env N L 0 0 0 fuel = some (evs, bp)) :
    (commitEvents evs).map (fun x => x.1) = intSeqs 0 N ∧
    negClaimCount evs = bp := by
  obtain ⟨hA, _, _, hD⟩ := sendFor_spec env N L fuel 0 0 0 evs bp h
  exact ⟨hD hrun, hA⟩

/-- The event trace of one message sent against `envBackPressure`. -/
def eventsBP1 : List Event :=
  [Event.flagCheck 0 true, Event.tryClaim 1 8 (-1), Event.tryClaim 2 8 0,
    Event.commit 3 0 0 8]

/-- Witness for C7's theorem: the rejected first claim is retried and message
0 is still committed. -/
theorem negative_tryClaim_retried_witness :
    sendFor envBackPressure 1 8 0 0 0 6 = some (eventsBP1, 1) ∧
    (commitEvents eventsBP1).map (fun x => x.1) = intSeqs 0 1 ∧
    negClaimCount eventsBP1 = 1 :=
  ⟨by decide,
    (negative_tryClaim_retried envBackPressure 1 8 6 eventsBP1 1 rfl (by decide)).1,
    (negative_tryClaim_retried envBackPressure 1 8 6 eventsBP1 1 rfl (by decide)).2⟩

/-- C8 counterexample: the claim "no new claim or poll is started after the
flag is cleared" is false.  With the flag cleared at tick 1 while message 0
is still in its retry loop, the run issues a `tryClaim` at tick 2, after the
flag already reads false — the inner retry loop does not test the flag. -/
theorem shutdown_claim_after_clear_counterexample :
    envCleared.clearTime = some 1 ∧
    sendFor envCleared 1 8 0 0 0 6 = some (eventsBP1, 1) ∧
    flagAt envCleared.clearTime 2 = false ∧
    Event.tryClaim 2 8 0 ∈ eventsBP1 :=
  ⟨rfl, by decide, by decide, by decide⟩

/-- C8 (amended): the SIGINT handler only writes false into the flag; once
the flag reads false it stays false; a send-loop iteration whose flag test
reads false performs no claim and no commit; and every poll is immediately
preceded by a flag test that read true.  (The original claim's "no new claim
is started after the flag is cleared" is dropped: the inner claim-retry loop
does not test the flag, so claim retries for the in-flight message may
continue after the flag clears — see the counterexample.) -/
theorem shutdown_flag_stops_iterations (sig : Int) (r : Bool) (c : Option Nat) (t t' : Nat)
    (env : SendEnv) (N L i : Int) (call t0 fuel : Nat) (evs : List Event) (bp : Nat)
    (ct : Option Nat) (u pt pfuel : Nat) :
    sigIntHandler sig r = false ∧
    (flagAt c t = false → t ≤ t' → flagAt c t' = false) ∧
    (sendFor env N L i call t0 fuel = some (evs, bp) →
      flagAt env.clearTime t0 = false →
      commitEvents evs = [] ∧ claimCount evs = 0 ∧ bp = 0) ∧
    (PollEvent.poll u ∈ pollLoop ct pt pfuel → 0 < u ∧ flagAt ct (u - 1) = true) := by
  refine ⟨rfl, fun hf hle => flagAt_mono c t t' hle hf, ?_, ?_⟩
  · intro h hf
    obtain ⟨_, hbp, hce, hcc⟩ := sendFor_flag_false env N L i call t0 fuel evs bp h hf
    exact ⟨hce, hcc, hbp⟩
  · exact pollLoop_poll_after_true_check ct pfuel pt u

/-- Witness for C8's amended theorem at a concrete cleared-flag run. -/
theorem shutdown_flag_stops_iterations_witness :
    sendFor envClearedAtZero 5 8 0 0 0 4 = some ([Event.flagCheck 0 false], 0) ∧
    flagAt envClearedAtZero.clearTime 0 = false ∧
    commitEvents [Event.flagCheck 0 false] = [] ∧
    claimCount [Event.flagCheck 0 false] = 0 :=
  ⟨by decide, by decide,
    ((shutdown_flag_stops_iterations 2 true none 0 0 envClearedAtZero 5 8 0 0 0 4
        [Event.flagCheck 0 false] 0 none 0 0 0).2.2.1 (by decide) (by decide)).1,
    ((shutdown_flag_stops_iterations 2 true none 0 0 envClearedAtZero 5 8 0 0 0 4
        [Event.flagCheck 0 false] 0 none 0 0 0).2.2.1 (by decide) (by decide)).2.1⟩

/-- C9: the parser accepts a message count of 0 (its lower bound is 0), and
on that valid input the run still reaches the ratio print with divisor
`numberOfMessages = 0`: the printed ratio is 0 divided by 0 — there is no
zero check on the divisor. -/
theorem ratio_division_unguarded_at_zero :
    parseCmdLine cpZero sampleConfig = .ok settingsZero ∧
    settingsZero.numberOfMessages = 0 ∧
    mainRun cpZero sampleConfig 100 envAllOk 3 = some ⟨0, false, false, [], some (0, 0)⟩ :=
  ⟨by decide, by decide, by decide⟩

/-- C10: for settings accepted by the parser (with an in-range default
message length), every commit's 8-byte `putInt64` write at the claim offset
lies entirely inside the claimed message, because the parser enforces
`messageLength` of at least `sizeof(int64) = 8`. -/
theorem putInt64_within_claimed_message (cp : CommandOptionParser) (cfg : DefaultConfig)
    (s : Settings) (env : SendEnv) (fuel : Nat) (evs : List Event) (bp : Nat)
    (hcfgLen : 8 ≤ cfg.messageLength)
    (hparse : parseCmdLine cp cfg = .ok s)
    (h : sendFor env s.numberOfMessages s.messageLength 0 0 0 fuel = some (evs, bp)) :
    ∀ x ∈ commitEvents evs,
      x.2.1 ≤ putInt64Lo x.2.1 ∧ putInt64Hi x.2.1 ≤ x.2.1 + x.2.2 := by
  obtain ⟨_, _, hC, _⟩ :=
    sendFor_spec env s.numberOfMessages s.messageLength fuel 0 0 0 evs bp h
  obtain ⟨_, _, _, h4, _⟩ := parseCmdLine_ok_fields cp cfg s hparse
  have hlen : 8 ≤ s.messageLength := by
    rcases getParamAsInt_ok_cases _ _ _ _ _ _ h4 with hin | hd
    · exact hin.1
    · rw [hd]; exact hcfgLen
  intro x hx
  have hxl := hC x hx
  unfold putInt64Lo putInt64Hi
  constructor
  · exact le_refl _
  · omega

/-- Witness for C10's theorem at a concrete run. -/
theorem putInt64_within_claimed_message_witness :
    parseCmdLine cpSmall sampleConfig = .ok settingsSmall ∧
    Event.commit 2 0 0 8 ∈ eventsSmall ∧
    (0 : Int) ≤ putInt64Lo 0 ∧ putInt64Hi 0 ≤ (0 : Int) + 8 :=
  ⟨by decide, by decide,
    (putInt64_within_claimed_message cpSmall sampleConfig settingsSmall envAllOk 10
        eventsSmall 0 (by decide) (by decide) (by decide) (0, 0, 8)
        (by decide)).1,
    (putInt64_within_claimed_message cpSmall sampleConfig settingsSmall envAllOk 10
        eventsSmall 0 (by decide) (by decide) (by decide) (0, 0, 8)
        (by decide)).2⟩

end ModifiedThroughput
